import Mathlib

/-!
Verification of the AI Career Advisor pipeline (`app.py`).

The development shallowly embeds the program's logic:
* `PyVal` models the Python/JSON values flowing through the app
  (JSON integers as `Int`, JSON floats by their literal text).
* `get_pdf_text` models PDF text extraction (the PDF library is an external
  collaborator, so a valid PDF is modelled as its list of per-page extracted
  texts).
* `clean` / `json_loads` / `get_gemini_response` model the Analysis Client:
  response normalization, JSON parsing and error reporting.
* `buildPrompt` models the Prompt Builder.
* `renderBlock` models the analysis-report rendering block, emitting the
  sequence of UI sections and the first uncaught exception, if any.
* `analyze` models the Analyze-button handler end to end, with the remote
  service supplied as an environment function from prompt to outcome.
-/

namespace CareerAdvisor

/-- Python/JSON values as used by the app. A JSON number without fraction or
exponent is a Python `int`; one with them (or `NaN`/`Infinity`) is a Python
`float`, carried as its JSON literal text, since IEEE-754 value arithmetic is
outside this model (no claim depends on a float's numeric value). -/
inductive PyVal where
| str (s : String)
| int (n : Int)
| float (lit : String)
| bool (b : Bool)
| none
| list (xs : List PyVal)
| dict (kvs : List (String × PyVal))

/-- Whether a float literal denotes zero: it has digits (so it is not
`NaN`/`Infinity`) and every mantissa digit (before any exponent) is `0`.
Exact for the literals the remote schema can produce; IEEE-754
underflow/overflow of extreme exponents is outside the model. -/
def floatLitIsZero (lit : String) : Bool :=
  lit.data.any (fun c => c.isDigit) &&
    (lit.data.takeWhile fun c => c != 'e' && c != 'E').all
      (fun c => !c.isDigit || c == '0')

/-- Python truthiness, as used by `if analysis_result:`, `if resume_text:`,
`if missing_skills:` and `if recommendations:` in `app.py`. -/
def pyTruthy : PyVal → Bool
| .str s => !s.isEmpty
| .int n => n != 0
| .float lit => !floatLitIsZero lit
| .bool b => b
| .none => false
| .list xs => !xs.isEmpty
| .dict kvs => !kvs.isEmpty

mutual

/-- Python `repr`, used for elements when a container is converted to text.
A float is rendered as its JSON literal (Python's shortest round-trip float
formatting is outside the model; no claim inspects it). -/
def pyRepr : PyVal → String
| .str s => "\x27" ++ s ++ "\x27"
| .int n => toString n
| .float lit => lit
| .bool b => if b then "True" else "False"
| .none => "None"
| .list xs => "[" ++ pyReprElems xs ++ "]"
| .dict kvs => "\x7b" ++ pyReprPairs kvs ++ "\x7d"

/-- Comma-separated `repr`s of a list's elements. -/
def pyReprElems : List PyVal → String
| [] => ""
| x :: rest =>
  pyRepr x ++ (if rest.isEmpty then "" else ", ") ++ pyReprElems rest

/-- Comma-separated `repr`s of a dict's key/value pairs. -/
def pyReprPairs : List (String × PyVal) → String
| [] => ""
| (k, v) :: rest =>
  "\x27" ++ k ++ "\x27: " ++ pyRepr v ++
    (if rest.isEmpty then "" else ", ") ++ pyReprPairs rest

end

/-- Python `str`, as applied by an f-string conversion `f"...{value}..."`.
Floats are rendered as their JSON literal (see `pyRepr`). -/
def pyStr : PyVal → String
| .str s => s
| .int n => toString n
| .float lit => lit
| .bool b => if b then "True" else "False"
| .none => "None"
| .list xs => "[" ++ pyReprElems xs ++ "]"
| .dict kvs => "\x7b" ++ pyReprPairs kvs ++ "\x7d"

/-- Python `dict.get(key, default)` on the key/value list of a dict
(first binding wins; the JSON parser below keeps keys unique). -/
def dictGetD (kvs : List (String × PyVal)) (k : String) (d : PyVal) : PyVal :=
  match kvs.lookup k with
  | some v => v
  | Option.none => d

/-- Python `x.get(key)` with no default, used on each missing-skill entry:
on a dict it yields the value or `None`; on any other value it raises
`AttributeError`. -/
def pyGetAttr : PyVal → String → Except String PyVal
| .dict kvs, k => .ok (dictGetD kvs k .none)
| .str _, _ => .error "AttributeError: str has no attribute get"
| .int _, _ => .error "AttributeError: int has no attribute get"
| .float _, _ => .error "AttributeError: float has no attribute get"
| .bool _, _ => .error "AttributeError: bool has no attribute get"
| .none, _ => .error "AttributeError: NoneType has no attribute get"
| .list _, _ => .error "AttributeError: list has no attribute get"

/-- Python iteration `for x in v`: lists yield elements, strings yield
one-character strings, dicts yield keys; numbers and `None` raise
`TypeError`. -/
def pyIter : PyVal → Except String (List PyVal)
| .list xs => .ok xs
| .str s => .ok (s.data.map fun c => .str (String.singleton c))
| .dict kvs => .ok (kvs.map fun kv => .str kv.1)
| .int _ => .error "TypeError: int object is not iterable"
| .float _ => .error "TypeError: float object is not iterable"
| .bool _ => .error "TypeError: bool object is not iterable"
| .none => .error "TypeError: NoneType object is not iterable"

/-- One rendered UI element of the analysis report. -/
inductive Section where
| successBox (v : PyVal)
| balloons
| header (s : String)
| metric (label value : String)
| subheader (s : String)
| write (v : PyVal)
| warning (s : String)
| infoBox (v : PyVal)
| markdown (s : String)
| jsonView (v : PyVal)

/-- The f-string rendered for one missing-skill entry:
`f"**{skill.get('skill')}** ({skill.get('importance')} Importance): {skill.get('explanation')}"`. -/
def skillLine (x : PyVal) : String :=
  "**" ++ pyStr (dictGetD (match x with | .dict kvs => kvs | _ => []) "skill" .none) ++
  "** (" ++ pyStr (dictGetD (match x with | .dict kvs => kvs | _ => []) "importance" .none) ++
  " Importance): " ++
  pyStr (dictGetD (match x with | .dict kvs => kvs | _ => []) "explanation" .none)

/-- The loop body over `missing_skills`: each entry is rendered as a warning
via three `.get` attribute accesses; a non-dict entry raises and aborts the
loop, keeping the sections already emitted. -/
def renderSkills : List PyVal → List Section × Option String
| [] => ([], Option.none)
| x :: xs =>
  match x with
  | .dict kvs =>
    let r := renderSkills xs
    (Section.warning (skillLine (.dict kvs)) :: r.1, r.2)
  | .str _ => ([], some "AttributeError: str has no attribute get")
  | .int _ => ([], some "AttributeError: int has no attribute get")
  | .float _ => ([], some "AttributeError: float has no attribute get")
  | .bool _ => ([], some "AttributeError: bool has no attribute get")
  | .none => ([], some "AttributeError: NoneType has no attribute get")
  | .list _ => ([], some "AttributeError: list has no attribute get")

/-- The missing-skills section (`app.py` lines 281-286): a truthy value is
iterated and each entry rendered as a warning; otherwise the "no gaps"
info message is shown. -/
def renderMissingSkillsSection (ms : PyVal) : List Section × Option String :=
  if pyTruthy ms then
    match pyIter ms with
    | .error e => ([], some e)
    | .ok items => renderSkills items
  else
    ([Section.infoBox (.str "No significant skill gaps identified. Your skills are a great match!")],
      Option.none)

/-- The recommendations section (`app.py` lines 289-292): a truthy value is
iterated and each entry rendered as a markdown bullet; a falsy value renders
nothing. -/
def renderRecsSection (rs : PyVal) : List Section × Option String :=
  if pyTruthy rs then
    match pyIter rs with
    | .error e => ([], some e)
    | .ok items => (items.map fun r => Section.markdown ("- " ++ pyStr r), Option.none)
  else
    ([], Option.none)

/-- The analysis rendering block (`app.py` lines 264-302), guarded by
`if analysis_result:`. Returns the emitted sections in order and the first
uncaught exception, if any (sections emitted before it are kept). -/
def renderBlock (v : PyVal) : List Section × Option String :=
  if pyTruthy v then
    match v with
    | .dict kvs =>
      let pre : List Section :=
        [Section.successBox (.str "Analysis Complete!"),
         Section.balloons,
         Section.header "📊 Analysis Report",
         Section.metric "Resume Match Score"
           (pyStr (dictGetD kvs "match_score" (.str "N/A")) ++ "%"),
         Section.subheader "👤 Candidate Summary",
         Section.write (dictGetD kvs "candidate_summary" (.str "Not available.")),
         Section.subheader "⚠️ Missing Skills"]
      match renderMissingSkillsSection (dictGetD kvs "missing_skills" (.list [])) with
      | (ms, some e) => (pre ++ ms, some e)
      | (ms, Option.none) =>
        let pre2 := pre ++ ms ++ [Section.subheader "📝 Resume Recommendations"]
        match renderRecsSection (dictGetD kvs "resume_recommendations" (.list [])) with
        | (rs, some e) => (pre2 ++ rs, some e)
        | (rs, Option.none) =>
          (pre2 ++ rs ++
            [Section.subheader "🚀 Career Advice",
             Section.infoBox (dictGetD kvs "career_advice" (.str "Not available.")),
             Section.subheader "💬 Overall Feedback",
             Section.successBox (dictGetD kvs "feedback" (.str "Not available.")),
             Section.jsonView (.dict kvs)], Option.none)
    | _ =>
      ([Section.successBox (.str "Analysis Complete!"),
        Section.balloons,
        Section.header "📊 Analysis Report"],
       some "AttributeError: object has no attribute get")
  else
    ([], Option.none)

/-- The characters stripped by Python `str.strip()` with no argument. -/
def pyWhitespace (c : Char) : Bool :=
  c = ' ' || c = '\t' || c = '\n' || c = '\r' || c = '\x0b' || c = '\x0c'

/-- Python `str.strip()`: remove leading and trailing whitespace. -/
def pyStrip (s : List Char) : List Char :=
  ((s.dropWhile pyWhitespace).reverse.dropWhile pyWhitespace).reverse

/-- Worker for `replaceAll`: scan left to right; at a match, emit `rep` and
resume after the matched occurrence (non-overlapping), else keep the
character. `fuel ≥ length of the input` guarantees completion. -/
def replaceAllF : Nat → List Char → List Char → List Char → List Char
| _, _, _, [] => []
| 0, _, _, s => s
| fuel + 1, pat, rep, c :: cs =>
  if pat ≠ [] ∧ pat.isPrefixOf (c :: cs) then
    rep ++ replaceAllF fuel pat rep ((c :: cs).drop pat.length)
  else
    c :: replaceAllF fuel pat rep cs

/-- Python `str.replace(pat, rep)`: replace every occurrence of `pat`,
scanning left to right, non-overlapping. (For the empty pattern the input is
returned unchanged; the app only uses non-empty patterns.) -/
def replaceAll (pat rep s : List Char) : List Char :=
  replaceAllF s.length pat rep s

/-- Response normalization from `get_gemini_response` (`app.py` line 90):
`response.text.strip().replace("```json", "").replace("```", "").strip()`. -/
def clean (s : String) : String :=
  ⟨pyStrip (replaceAll "```".data [] (replaceAll "```json".data [] (pyStrip s.data)))⟩

/-- Normalization as the spec words it: trim surrounding whitespace and strip
one leading fenced-code marker (triple backtick optionally followed by the
language tag) and one trailing triple backtick, if present, changing nothing
else. Stated from the spec for comparison against `clean`. -/
def specNormalize (s : String) : String :=
  let t0 := pyStrip s.data
  let t1 :=
    if "```json".data.isPrefixOf t0 then t0.drop 7
    else if "```".data.isPrefixOf t0 then t0.drop 3
    else t0
  let t2 := if "```".data.isSuffixOf t1 then t1.take (t1.length - 3) else t1
  ⟨pyStrip t2⟩

/-! ### JSON parsing (`json.loads`)

A recursive-descent parser modelling Python's `json.loads`: objects, arrays,
strings (all escapes, including `\uXXXX`, with raw control characters
rejected as in strict mode), numbers per the JSON grammar (leading zeros
rejected; a number with a fraction or exponent is a Python float), and the
constants `true`/`false`/`null` and `NaN`/`Infinity`/`-Infinity`.  Parsing
fails (`none`) exactly when `json.loads` raises, and trailing
non-whitespace is rejected.  Two value-level approximations (parse
success/failure is unaffected): a `\uXXXX` escape denoting a lone surrogate
(which Python keeps in the `str`) is replaced by U+FFFD, since Lean strings
cannot hold lone surrogates; and float values are carried as their literal
text (see `PyVal.float`). -/

/-- Skip JSON whitespace (space, tab, newline, carriage return). -/
def skipWs : List Char → List Char :=
  List.dropWhile fun c => c = ' ' || c = '\t' || c = '\n' || c = '\r'

/-- The value of one hex digit, if it is one. -/
def hexVal (c : Char) : Option Nat :=
  if c.isDigit then some (c.toNat - 48)
  else if 'a' ≤ c ∧ c ≤ 'f' then some (c.toNat - 87)
  else if 'A' ≤ c ∧ c ≤ 'F' then some (c.toNat - 55)
  else Option.none

/-- Worker for `parseStringBody`; `fuel ≥ length of the input + 1`
guarantees completion (every step consumes at least one character). -/
def parseStringBodyF : Nat → List Char → List Char → Option (String × List Char)
| 0, _, _ => Option.none
| fuel + 1, acc, cs =>
  match cs with
  | [] => Option.none
  | '"' :: rest => some (⟨acc.reverse⟩, rest)
  | '\\' :: 'u' :: h₁ :: h₂ :: h₃ :: h₄ :: rest =>
    match hexVal h₁, hexVal h₂, hexVal h₃, hexVal h₄ with
    | some a, some b, some c, some d =>
      let code := ((a * 16 + b) * 16 + c) * 16 + d
      if 0xD800 ≤ code ∧ code ≤ 0xDBFF then
        match rest with
        | '\\' :: 'u' :: g₁ :: g₂ :: g₃ :: g₄ :: rest₂ =>
          match hexVal g₁, hexVal g₂, hexVal g₃, hexVal g₄ with
          | some p, some q, some r, some t =>
            let low := ((p * 16 + q) * 16 + r) * 16 + t
            if 0xDC00 ≤ low ∧ low ≤ 0xDFFF then
              parseStringBodyF fuel
                (Char.ofNat (0x10000 + (code - 0xD800) * 0x400 + (low - 0xDC00)) :: acc)
                rest₂
            else parseStringBodyF fuel ('�' :: acc) rest
          | _, _, _, _ => parseStringBodyF fuel ('�' :: acc) rest
        | _ => parseStringBodyF fuel ('�' :: acc) rest
      else if 0xDC00 ≤ code ∧ code ≤ 0xDFFF then
        parseStringBodyF fuel ('�' :: acc) rest
      else
        parseStringBodyF fuel (Char.ofNat code :: acc) rest
    | _, _, _, _ => Option.none
  | '\\' :: c :: rest =>
    match c with
    | '"' => parseStringBodyF fuel ('"' :: acc) rest
    | '\\' => parseStringBodyF fuel ('\\' :: acc) rest
    | '/' => parseStringBodyF fuel ('/' :: acc) rest
    | 'n' => parseStringBodyF fuel ('\n' :: acc) rest
    | 't' => parseStringBodyF fuel ('\t' :: acc) rest
    | 'r' => parseStringBodyF fuel ('\r' :: acc) rest
    | 'b' => parseStringBodyF fuel ('\x08' :: acc) rest
    | 'f' => parseStringBodyF fuel ('\x0c' :: acc) rest
    | _ => Option.none
  | c :: rest =>
    if c.toNat < 32 then Option.none else parseStringBodyF fuel (c :: acc) rest

/-- Parse the body of a JSON string after the opening quote.  Escapes are
those of `json.loads`; a raw control character (below U+0020) fails as in
Python's default strict mode.  A `\uXXXX` high surrogate followed by a low
surrogate combines into one character; a lone surrogate parses successfully
and is carried as U+FFFD (see the section comment). -/
def parseStringBody (acc cs : List Char) : Option (String × List Char) :=
  parseStringBodyF (cs.length + 1) acc cs

/-- Read a non-empty run of decimal digits as a natural number. -/
def digitsToNat (ds : List Char) : Nat :=
  ds.foldl (fun a c => a * 10 + (c.toNat - 48)) 0

/-- The integer part of a JSON number: `0`, or a non-zero digit followed by
more digits — a leading zero cannot be followed by further digits, as in the
JSON grammar (so `json.loads` fails on `01`). -/
def parseIntPart : List Char → Option (List Char × List Char)
| '0' :: rest => some (['0'], rest)
| c :: rest =>
  if c.isDigit then
    some (c :: rest.takeWhile Char.isDigit, rest.dropWhile Char.isDigit)
  else Option.none
| [] => Option.none

/-- The optional fraction part `.digits` of a JSON number (`[]` if absent;
a dot with no digit fails). -/
def parseFracPart : List Char → Option (List Char × List Char)
| '.' :: rest =>
  let ds := rest.takeWhile Char.isDigit
  if ds.isEmpty then Option.none
  else some ('.' :: ds, rest.dropWhile Char.isDigit)
| cs => some ([], cs)

/-- The optional exponent part `[eE][+-]?digits` of a JSON number (`[]` if
absent; an exponent marker with no digit fails). -/
def parseExpPart : List Char → Option (List Char × List Char)
| e :: s :: rest =>
  if e = 'e' ∨ e = 'E' then
    if s = '+' ∨ s = '-' then
      let ds := rest.takeWhile Char.isDigit
      if ds.isEmpty then Option.none
      else some (e :: s :: ds, rest.dropWhile Char.isDigit)
    else
      let ds := (s :: rest).takeWhile Char.isDigit
      if ds.isEmpty then Option.none
      else some (e :: ds, (s :: rest).dropWhile Char.isDigit)
  else some ([], e :: s :: rest)
| [e] =>
  if e = 'e' ∨ e = 'E' then Option.none else some ([], [e])
| [] => some ([], [])

/-- Parse a JSON number (after an optional leading `-`, already consumed and
recorded in `neg`): without a fraction or exponent it is a Python `int`,
with either it is a Python `float` carried as its literal. -/
def parseNumber (neg : Bool) (cs : List Char) : Option (PyVal × List Char) :=
  match parseIntPart cs with
  | Option.none => Option.none
  | some (ip, r₁) =>
    match parseFracPart r₁ with
    | Option.none => Option.none
    | some (fp, r₂) =>
      match parseExpPart r₂ with
      | Option.none => Option.none
      | some (ep, r₃) =>
        if fp.isEmpty && ep.isEmpty then
          some (.int (if neg then -(digitsToNat ip : Int) else (digitsToNat ip : Int)), r₃)
        else
          some (.float ⟨(if neg then ['-'] else []) ++ ip ++ fp ++ ep⟩, r₃)

/-- Insert a key into a Python dict: an existing key keeps its position and
gets the new value (so a duplicate JSON key keeps the last value). -/
def insertKey : List (String × PyVal) → String → PyVal → List (String × PyVal)
| [], k, v => [(k, v)]
| (k', v') :: rest, k, v =>
  if k' = k then (k', v) :: rest else (k', v') :: insertKey rest k v

mutual

/-- Parse one JSON value (leading whitespace allowed), returning it and the
remaining input. `fuel` bounds recursion depth. -/
def parseValue : Nat → List Char → Option (PyVal × List Char)
| 0, _ => Option.none
| fuel + 1, cs =>
  match skipWs cs with
  | '\x7b' :: rest =>
    match skipWs rest with
    | '\x7d' :: r2 => some (.dict [], r2)
    | cs2 => parseMemberChain fuel cs2 []
  | '[' :: rest =>
    match skipWs rest with
    | ']' :: r2 => some (.list [], r2)
    | cs2 => parseElemChain fuel cs2 []
  | '"' :: rest =>
    match parseStringBody [] rest with
    | some (s, r) => some (.str s, r)
    | Option.none => Option.none
  | 't' :: rest =>
    if ['r', 'u', 'e'].isPrefixOf rest then some (.bool true, rest.drop 3) else Option.none
  | 'f' :: rest =>
    if ['a', 'l', 's', 'e'].isPrefixOf rest then some (.bool false, rest.drop 4) else Option.none
  | 'n' :: rest =>
    if ['u', 'l', 'l'].isPrefixOf rest then some (.none, rest.drop 3) else Option.none
  | 'N' :: rest =>
    if ['a', 'N'].isPrefixOf rest then some (.float "NaN", rest.drop 2) else Option.none
  | 'I' :: rest =>
    if ['n', 'f', 'i', 'n', 'i', 't', 'y'].isPrefixOf rest then
      some (.float "Infinity", rest.drop 7)
    else Option.none
  | '-' :: rest =>
    if ['I', 'n', 'f', 'i', 'n', 'i', 't', 'y'].isPrefixOf rest then
      some (.float "-Infinity", rest.drop 8)
    else parseNumber true rest
  | c :: rest =>
    if c.isDigit then parseNumber false (c :: rest) else Option.none
  | [] => Option.none

/-- Parse the members of a JSON object after `{` (at least one member). -/
def parseMemberChain : Nat → List Char → List (String × PyVal) → Option (PyVal × List Char)
| 0, _, _ => Option.none
| fuel + 1, cs, acc =>
  match cs with
  | '"' :: rest =>
    match parseStringBody [] rest with
    | some (k, r1) =>
      match skipWs r1 with
      | ':' :: r2 =>
        match parseValue fuel r2 with
        | some (v, r3) =>
          match skipWs r3 with
          | ',' :: r4 => parseMemberChain fuel (skipWs r4) (insertKey acc k v)
          | '\x7d' :: r4 => some (.dict (insertKey acc k v), r4)
          | _ => Option.none
        | Option.none => Option.none
      | _ => Option.none
    | Option.none => Option.none
  | _ => Option.none

/-- Parse the elements of a JSON array after `[` (at least one element). -/
def parseElemChain : Nat → List Char → List PyVal → Option (PyVal × List Char)
| 0, _, _ => Option.none
| fuel + 1, cs, acc =>
  match parseValue fuel cs with
  | some (v, r1) =>
    match skipWs r1 with
    | ',' :: r2 => parseElemChain fuel r2 (v :: acc)
    | ']' :: r2 => some (.list (v :: acc).reverse, r2)
    | _ => Option.none
  | Option.none => Option.none

end

/-- Python `json.loads`: parse one JSON value; trailing content other than
whitespace makes the whole parse fail.  Acceptance and rejection match
`json.loads` (leading-zero numbers such as `01` and raw control characters
in strings are rejected; floats, `NaN`/`Infinity` and `\uXXXX` escapes are
accepted), with the two value-level approximations listed in the section
comment above. -/
def json_loads (s : String) : Option PyVal :=
  match parseValue (2 * s.length + 4) s.data with
  | some (v, rest) => if (skipWs rest).isEmpty then some v else Option.none
  | Option.none => Option.none

/-! ### Prompt Builder, Document Extractor, Analysis Client, Orchestrator -/

/-- The prompt f-string of `get_gemini_response` (`app.py` lines 46-84):
a fixed template with the resume text and the job-description text
interpolated at their two slots. -/
def buildPrompt (resume_text jd_text : String) : String :=
  "\n    You are an expert AI Career Advisor. Your task is to analyze a candidate\x27s resume against a job description and provide a detailed, structured analysis in JSON format.\n\n    **Resume Text:**\n    ---\n    "
  ++ resume_text ++
  "\n    ---\n\n    **Job Description Text:**\n    ---\n    "
  ++ jd_text ++
  "\n    ---\n\n    **Instructions:**\n    1.  **Analyze Both Documents:** Carefully read the resume to understand the candidate\x27s skills, experience, and education. Read the job description to identify the key requirements, responsibilities, and desired qualifications.\n    2.  **Calculate Match Score:** Provide a \"match_score\" from 0 to 100, representing how well the resume aligns with the job description. A higher score means a better match.\n    3.  **Summarize Candidate Profile:** Write a brief \"candidate_summary\" of the candidate\x27s profile in relation to the job.\n    4.  **Identify Skill Gaps:** Create a list of \"missing_skills\". Each item in the list should be an object with the skill name, its importance (High, Medium, Low), and an explanation of why it\x27s needed for the job.\n    5.  **Provide Resume Recommendations:** Offer specific, actionable \"resume_recommendations\" to improve the resume\x27s alignment with the job description.\n    6.  **Give Career Advice:** Provide personalized \"career_advice\" to help the candidate bridge any gaps and be a better fit for this or similar roles.\n    7.  **Overall Feedback:** Give a concluding \"feedback\" statement.\n\n    **Output Format:**\n    Return ONLY a valid JSON object with the following structure. Do not include any other text or markdown formatting before or after the JSON.\n    \x7b\n      \"match_score\": <number>,\n      \"candidate_summary\": \"<string>\",\n      \"missing_skills\": [\n        \x7b\n          \"skill\": \"<string>\",\n          \"importance\": \"<High/Medium/Low>\",\n          \"explanation\": \"<string>\"\n        \x7d\n      ],\n      \"resume_recommendations\": [\"<string>\", \"<string>\", ...],\n      \"career_advice\": \"<string>\",\n      \"feedback\": \"<string>\"\n    \x7d\n    "

/-- Input bytes handed to the Document Extractor: either a PDF the library
can open, abstracted as its list of per-page extracted texts, or bytes it
cannot parse (opening raises). -/
inductive PdfInput where
| valid (pages : List String)
| invalid

/-- `get_pdf_text` (`app.py` lines 28-40): concatenate the text of pages
`0, 1, ..., len-1` onto the empty string; on a parse failure an error is
shown and `None` is returned (surfaced via `ErrMsg.pdfError` in `analyze`). -/
def get_pdf_text : PdfInput → Option String
| .valid pages =>
  some ((List.range pages.length).foldl (fun acc i => acc ++ pages.getD i "") "")
| .invalid => Option.none

/-- Plain page-order concatenation, for stating the extractor contract. -/
def concatPages : List String → String
| [] => ""
| p :: ps => p ++ concatPages ps

/-- Outcome of the remote `model.generate_content` call: the call raises, or
produces a response whose `.text` is the given raw string. -/
inductive RemoteOutcome where
| failure
| success (text : String)

/-- A user-visible error message shown with `st.error`. -/
inductive ErrMsg where
| inputMissing
| pdfError
| aiError
| rawResponse (raw : String)

/-- `get_gemini_response` (`app.py` lines 42-98): build the prompt, call the
remote model (the service is the environment `remote`, a function of the
prompt actually sent), normalize with `clean`, parse with `json_loads`.
On any failure: show the communication error and the raw response text
(`"No response received"` if the call itself raised) and return `None`. -/
def get_gemini_response (resume_text jd_text : String)
    (remote : String → RemoteOutcome) : Option PyVal × List ErrMsg :=
  match remote (buildPrompt resume_text jd_text) with
  | .failure => (Option.none, [.aiError, .rawResponse "No response received"])
  | .success t =>
    match json_loads (clean t) with
    | some v => (some v, [])
    | Option.none => (Option.none, [.aiError, .rawResponse t])

/-- One press of the Analyze button: the uploaded file (if any), the pasted
job description, and the remote service as an environment function. -/
structure RunInput where
  uploaded : Option PdfInput
  job_description : String
  remote : String → RemoteOutcome

/-- What one run displays: the error messages shown, whether the remote call
was made, the report sections displayed, and an uncaught rendering
exception, if any. -/
structure RunResult where
  errors : List ErrMsg
  remote_called : Bool
  displayed : List Section
  render_exception : Option String

/-- The Analyze-button handler (`app.py` lines 254-304): validate inputs,
extract, stop silently on falsy extracted text, call the model, and render
the (truthy) parsed result. -/
def analyze (inp : RunInput) : RunResult :=
  match inp.uploaded with
  | some pdf =>
    if !inp.job_description.isEmpty then
      match get_pdf_text pdf with
      | Option.none => ⟨[.pdfError], false, [], Option.none⟩
      | some text =>
        if !text.isEmpty then
          match get_gemini_response text inp.job_description inp.remote with
          | (some v, errs) =>
            let r := renderBlock v
            ⟨errs, true, r.1, r.2⟩
          | (Option.none, errs) => ⟨errs, true, [], Option.none⟩
        else ⟨[], false, [], Option.none⟩
    else ⟨[.inputMissing], false, [], Option.none⟩
  | Option.none => ⟨[.inputMissing], false, [], Option.none⟩

/-- Whether a value is a Python dict (a JSON object). -/
def isDictVal : PyVal → Bool
| .dict _ => true
| _ => false

/-- Whether a section is a subheader with the given title. -/
def sectionIsSubheader (name : String) : Section → Bool
| .subheader s => s == name
| _ => false

/-- All report sections are present: the header, the score metric, and each
labeled section of the report (summary, missing skills, recommendations,
career advice, feedback, raw JSON view). -/
def HasAllSections (ss : List Section) : Prop :=
  (ss.any fun s => match s with | .header _ => true | _ => false) = true ∧
  (ss.any fun s => match s with | .metric _ _ => true | _ => false) = true ∧
  ss.any (sectionIsSubheader "👤 Candidate Summary") = true ∧
  (ss.any fun s => match s with | .write _ => true | _ => false) = true ∧
  ss.any (sectionIsSubheader "⚠️ Missing Skills") = true ∧
  ss.any (sectionIsSubheader "📝 Resume Recommendations") = true ∧
  ss.any (sectionIsSubheader "🚀 Career Advice") = true ∧
  (ss.any fun s => match s with | .infoBox _ => true | _ => false) = true ∧
  ss.any (sectionIsSubheader "💬 Overall Feedback") = true ∧
  (ss.any fun s => match s with | .successBox _ => true | _ => false) = true ∧
  (ss.any fun s => match s with | .jsonView _ => true | _ => false) = true

/-- The missing-skills value renders without an exception: it is falsy (the
"no gaps" branch) or a list of JSON objects. -/
def okSkillsVal : PyVal → Bool
| .list xs => xs.isEmpty || xs.all isDictVal
| .str s => s.isEmpty
| .int n => n == 0
| .float lit => floatLitIsZero lit
| .bool b => !b
| .none => true
| .dict kvs => kvs.isEmpty

/-- The recommendations value renders without an exception: it is falsy
(renders nothing) or iterable (list, string or dict). -/
def okRecsVal : PyVal → Bool
| .list _ => true
| .str _ => true
| .dict _ => true
| .int n => n == 0
| .float lit => floatLitIsZero lit
| .bool b => !b
| .none => true

/-! ### Theorems -/

lemma isEmpty_eq_false_of_ne {s : String} (h : s ≠ "") : s.isEmpty = false := by
  cases hs : s.isEmpty
  · rfl
  · exact absurd ((String.isEmpty_iff s).mp hs) h

lemma foldl_range_getD (pages : List String) (init : String) :
    (List.range pages.length).foldl (fun acc i => acc ++ pages.getD i "") init
      = init ++ concatPages pages := by
  induction pages generalizing init with
  | nil => simp [concatPages]
  | cons p ps ih =>
    rw [List.length_cons, List.range_succ_eq_map]
    simp only [List.foldl_cons, List.foldl_map, List.getD_cons_succ, List.getD_cons_zero]
    rw [ih, concatPages, String.append_assoc]

/-- Claim C4: for every valid multi-page PDF, the extractor's output is the
concatenation of each page's extractable text in page order — no page
skipped, duplicated or reordered, and no page-boundary marker inserted. -/
theorem extractor_concatenates_pages (pages : List String) :
    get_pdf_text (PdfInput.valid pages) = some (concatPages pages) := by
  simp only [get_pdf_text]
  rw [foldl_range_getD]
  simp

/-- Claim C3: for input bytes that are not a valid/parseable PDF, extraction
fails, the extraction error is surfaced to the user, and the remote LLM call
is never made for that submission. -/
theorem invalid_pdf_aborts (jd : String) (remote : String → RemoteOutcome)
    (hjd : jd ≠ "") :
    analyze ⟨some PdfInput.invalid, jd, remote⟩ =
      ⟨[ErrMsg.pdfError], false, [], Option.none⟩ := by
  simp [analyze, get_pdf_text, isEmpty_eq_false_of_ne hjd]

theorem invalid_pdf_aborts_witness :
    analyze ⟨some PdfInput.invalid, "software engineer", fun _ => RemoteOutcome.failure⟩ =
      ⟨[ErrMsg.pdfError], false, [], Option.none⟩ :=
  invalid_pdf_aborts "software engineer" (fun _ => RemoteOutcome.failure) (by decide)

/-- Claim C10: for a valid PDF whose extracted text is empty, the extractor
returns the empty string without error, and the handler's truthiness check
then stops the run silently: no remote call, no error message, no report. -/
theorem empty_extraction_is_silent (pages : List String) (jd : String)
    (remote : String → RemoteOutcome) (hjd : jd ≠ "")
    (hempty : get_pdf_text (PdfInput.valid pages) = some "") :
    analyze ⟨some (PdfInput.valid pages), jd, remote⟩ =
      ⟨[], false, [], Option.none⟩ := by
  simp [analyze, hempty, isEmpty_eq_false_of_ne hjd]
  intro h
  exact absurd h (by decide)

theorem empty_extraction_is_silent_witness :
    analyze ⟨some (PdfInput.valid ["", ""]), "data analyst", fun _ => RemoteOutcome.failure⟩ =
      ⟨[], false, [], Option.none⟩ :=
  empty_extraction_is_silent ["", ""] "data analyst" (fun _ => RemoteOutcome.failure)
    (by decide) rfl

/-- Claim C7: the Prompt Builder is deterministic — two constructions from
equal (resume, job-description) pairs yield byte-identical prompt strings. -/
theorem prompt_deterministic (r₁ j₁ r₂ j₂ : String) (hr : r₁ = r₂) (hj : j₁ = j₂) :
    buildPrompt r₁ j₁ = buildPrompt r₂ j₂ := by
  rw [hr, hj]

theorem prompt_deterministic_witness :
    buildPrompt "Python developer, 5 years" "Backend engineer role"
      = buildPrompt "Python developer, 5 years" "Backend engineer role" :=
  prompt_deterministic _ _ _ _ rfl rfl

/-- Counterexample to claim C1 as stated: the empty JSON object `{}` is
falsy, so the rendering block's `if analysis_result:` guard skips it —
no section and no placeholder is rendered at all (and no exception). -/
theorem empty_object_renders_nothing :
    renderBlock (PyVal.dict []) = ([], Option.none) := rfl

/-- Counterexample to claim C5 as stated: a run on a valid PDF with no
extractable text ends with no error message, no report sections and no
exception — neither a report nor an error. -/
theorem silent_run_neither_report_nor_error :
    analyze ⟨some (PdfInput.valid [""]), "engineer", fun _ => RemoteOutcome.failure⟩ =
      ⟨[], false, [], Option.none⟩ := rfl

lemma renderSkills_all_dict (xs : List PyVal)
    (h : ∀ x ∈ xs, isDictVal x = true) :
    renderSkills xs = (xs.map fun x => Section.warning (skillLine x), Option.none) := by
  induction xs with
  | nil => rfl
  | cons x xs ih =>
    have hx := h x (List.mem_cons_self x xs)
    cases x <;> simp [isDictVal] at hx
    rw [renderSkills, ih fun y hy => h y (List.mem_cons_of_mem _ hy)]
    simp

/-- Claim C8: an empty missing-skills list renders the positive "no gaps"
affirmation instead of an empty list; a non-empty list of entry objects
renders each entry's skill/importance/explanation line in the given order. -/
theorem missing_skills_rendering :
    renderMissingSkillsSection (PyVal.list []) =
      ([Section.infoBox (PyVal.str "No significant skill gaps identified. Your skills are a great match!")],
        Option.none)
    ∧ ∀ (xs : List PyVal), xs ≠ [] → (∀ x ∈ xs, isDictVal x = true) →
        renderMissingSkillsSection (PyVal.list xs) =
          (xs.map fun x => Section.warning (skillLine x), Option.none) := by
  constructor
  · rfl
  · intro xs hne hd
    cases xs with
    | nil => exact absurd rfl hne
    | cons x xs =>
      rw [renderMissingSkillsSection]
      simp only [pyTruthy, List.isEmpty_cons, Bool.not_false, if_true, pyIter]
      exact renderSkills_all_dict _ hd

theorem missing_skills_rendering_witness :
    renderMissingSkillsSection
        (PyVal.list [PyVal.dict [("skill", PyVal.str "Docker"),
          ("importance", PyVal.str "High"),
          ("explanation", PyVal.str "Required for deployment")]]) =
      ([Section.warning "**Docker** (High Importance): Required for deployment"],
        Option.none) := by
  have h := missing_skills_rendering.2
    [PyVal.dict [("skill", PyVal.str "Docker"),
      ("importance", PyVal.str "High"),
      ("explanation", PyVal.str "Required for deployment")]]
    (by simp) (by simp [isDictVal])
  simpa [skillLine, dictGetD, pyStr] using h

/-- Claim C9: an empty recommendations list renders nothing; a non-empty one
is rendered as a simple markdown list in the given order. -/
theorem recommendations_rendering :
    renderRecsSection (PyVal.list []) = ([], Option.none)
    ∧ ∀ (xs : List PyVal), renderRecsSection (PyVal.list xs) =
        (xs.map fun r => Section.markdown ("- " ++ pyStr r), Option.none) := by
  constructor
  · rfl
  · intro xs
    cases xs with
    | nil => rfl
    | cons x xs => rfl

lemma renderMissingSkills_ok (v : PyVal) (h : okSkillsVal v = true) :
    (renderMissingSkillsSection v).2 = Option.none := by
  cases v with
  | list xs =>
    cases xs with
    | nil => rfl
    | cons y ys =>
      have hall : ∀ x ∈ y :: ys, isDictVal x = true := by
        rw [okSkillsVal] at h
        simp only [List.isEmpty_cons, Bool.false_or] at h
        simpa [List.all_eq_true] using h
      simp only [renderMissingSkillsSection, pyTruthy, List.isEmpty_cons,
        Bool.not_false, if_true, pyIter]
      rw [renderSkills_all_dict _ hall]
  | str s =>
    rw [okSkillsVal] at h
    simp [renderMissingSkillsSection, pyTruthy, h]
  | int n =>
    rw [okSkillsVal] at h
    have hn : n = 0 := by simpa using h
    subst hn
    simp [renderMissingSkillsSection, pyTruthy]
  | float lit =>
    rw [okSkillsVal] at h
    simp [renderMissingSkillsSection, pyTruthy, h]
  | bool b =>
    rw [okSkillsVal] at h
    have hb : b = false := by simpa using h
    subst hb
    simp [renderMissingSkillsSection, pyTruthy]
  | none => rfl
  | dict kvs =>
    rw [okSkillsVal] at h
    have hk : kvs = [] := by simpa using h
    subst hk
    rfl

lemma renderRecs_ok (v : PyVal) (h : okRecsVal v = true) :
    (renderRecsSection v).2 = Option.none := by
  cases v with
  | list xs =>
    cases xs with
    | nil => rfl
    | cons y ys => simp [renderRecsSection, pyTruthy, pyIter]
  | str s =>
    by_cases hs : s.isEmpty = true
    · simp [renderRecsSection, pyTruthy, hs]
    · simp [renderRecsSection, pyTruthy, hs, pyIter]
  | dict kvs =>
    cases kvs with
    | nil => rfl
    | cons y ys => simp [renderRecsSection, pyTruthy, pyIter]
  | int n =>
    rw [okRecsVal] at h
    have hn : n = 0 := by simpa using h
    subst hn
    simp [renderRecsSection, pyTruthy]
  | float lit =>
    rw [okRecsVal] at h
    simp [renderRecsSection, pyTruthy, h]
  | bool b =>
    rw [okRecsVal] at h
    have hb : b = false := by simpa using h
    subst hb
    simp [renderRecsSection, pyTruthy]
  | none => rfl

/-- Claim C1 (amended): for every parse result that is a *non-empty* JSON
object whose `missing_skills` field (if truthy) is a list of objects and
whose `resume_recommendations` field (if truthy) is iterable, the rendering
block renders all report sections, substituting placeholders for absent
fields, and raises no exception. (The empty object `{}` is falsy and is
skipped entirely by the `if analysis_result:` guard — see the
counterexample `empty_object_renders_nothing`.) -/
theorem render_handles_missing_fields (kvs : List (String × PyVal)) (hne : kvs ≠ [])
    (h1 : okSkillsVal (dictGetD kvs "missing_skills" (PyVal.list [])) = true)
    (h2 : okRecsVal (dictGetD kvs "resume_recommendations" (PyVal.list [])) = true) :
    (renderBlock (PyVal.dict kvs)).2 = Option.none ∧
    HasAllSections (renderBlock (PyVal.dict kvs)).1 := by
  have htr : pyTruthy (PyVal.dict kvs) = true := by
    cases kvs with
    | nil => exact absurd rfl hne
    | cons a l => rfl
  rcases hms : renderMissingSkillsSection (dictGetD kvs "missing_skills" (PyVal.list []))
    with ⟨ms, e₁⟩
  have he₁ : e₁ = Option.none := by
    have h := renderMissingSkills_ok _ h1
    rw [hms] at h
    exact h
  subst he₁
  rcases hrs : renderRecsSection (dictGetD kvs "resume_recommendations" (PyVal.list []))
    with ⟨rs, e₂⟩
  have he₂ : e₂ = Option.none := by
    have h := renderRecs_ok _ h2
    rw [hrs] at h
    exact h
  subst he₂
  rw [renderBlock, if_pos htr]
  simp [hms, hrs, HasAllSections, sectionIsSubheader, List.any_append]

theorem render_handles_missing_fields_witness :
    (renderBlock (PyVal.dict [("feedback", PyVal.str "Well done")])).2 = Option.none ∧
    HasAllSections (renderBlock (PyVal.dict [("feedback", PyVal.str "Well done")])).1 :=
  render_handles_missing_fields [("feedback", PyVal.str "Well done")]
    (by simp) rfl rfl

lemma renderBlock_falsy (v : PyVal) (hf : pyTruthy v = false) :
    renderBlock v = ([], Option.none) := by
  cases v <;> rw [renderBlock] <;> first
  | (rw [hf]; simp)
  | simp

lemma renderBlock_none_shape (v : PyVal) (secs : List Section)
    (h : renderBlock v = (secs, Option.none)) :
    secs = [] ∨ HasAllSections secs := by
  by_cases ht : pyTruthy v = true
  · cases v with
    | dict kvs =>
      rw [renderBlock, if_pos ht] at h
      rcases hms : renderMissingSkillsSection (dictGetD kvs "missing_skills" (PyVal.list []))
        with ⟨ms, e₁⟩
      cases e₁ with
      | some err =>
        simp only [hms] at h
        simp at h
      | none =>
        rcases hrs : renderRecsSection (dictGetD kvs "resume_recommendations" (PyVal.list []))
          with ⟨rs, e₂⟩
        cases e₂ with
        | some err =>
          simp only [hms, hrs] at h
          simp at h
        | none =>
          simp only [hms, hrs, Prod.mk.injEq] at h
          right
          rw [← h.1]
          simp [HasAllSections, sectionIsSubheader, List.any_append]
    | str s =>
      rw [renderBlock] at h
      · rw [if_pos ht] at h
        simp at h
      · simp
    | int n =>
      rw [renderBlock] at h
      · rw [if_pos ht] at h
        simp at h
      · simp
    | float lit =>
      rw [renderBlock] at h
      · rw [if_pos ht] at h
        simp at h
      · simp
    | bool b =>
      rw [renderBlock] at h
      · rw [if_pos ht] at h
        simp at h
      · simp
    | none =>
      rw [renderBlock] at h
      · rw [if_pos ht] at h
        simp at h
      · simp
    | list xs =>
      rw [renderBlock] at h
      · rw [if_pos ht] at h
        simp at h
      · simp
  · rw [renderBlock_falsy v (by simpa using ht)] at h
    simp only [Prod.mk.injEq] at h
    left
    exact h.1.symm

/-- Claim C5 (amended): every run ends in one of four outcomes — an error is
shown and nothing is rendered; the full report is rendered with no error;
the run stops silently with neither (empty extracted text, or a falsy parse
result such as `{}`); or rendering raises an exception part-way, leaving the
already-emitted partial report (see `silent_run_neither_report_nor_error`
for the counterexample to the original two-outcome claim). -/
theorem run_outcomes (inp : RunInput) :
    ((analyze inp).errors ≠ [] ∧ (analyze inp).displayed = []
      ∧ (analyze inp).render_exception = Option.none) ∨
    ((analyze inp).errors = [] ∧ (analyze inp).render_exception = Option.none
      ∧ HasAllSections (analyze inp).displayed) ∨
    ((analyze inp).errors = [] ∧ (analyze inp).displayed = []
      ∧ (analyze inp).render_exception = Option.none) ∨
    ((analyze inp).errors = [] ∧ (analyze inp).render_exception ≠ Option.none) := by
  obtain ⟨up, jd, remote⟩ := inp
  cases up with
  | none =>
    left
    refine ⟨?_, ?_, ?_⟩ <;> simp [analyze]
  | some pdf =>
    by_cases hjd : jd.isEmpty = true
    · left
      refine ⟨?_, ?_, ?_⟩ <;> simp [analyze, hjd]
    · have hjd' : jd.isEmpty = false := by
        cases h : jd.isEmpty
        · rfl
        · exact absurd h hjd
      cases pdf with
      | invalid =>
        left
        refine ⟨?_, ?_, ?_⟩ <;> simp [analyze, hjd', get_pdf_text]
      | valid pages =>
        rcases hext : get_pdf_text (PdfInput.valid pages) with _ | text
        · exact absurd hext (by simp [get_pdf_text])
        · by_cases htxt : text.isEmpty = true
          · right; right; left
            refine ⟨?_, ?_, ?_⟩ <;> simp [analyze, hjd', hext, htxt]
          · have htxt' : text.isEmpty = false := by
              cases h : text.isEmpty
              · rfl
              · exact absurd h htxt
            cases hrem : remote (buildPrompt text jd) with
            | failure =>
              left
              refine ⟨?_, ?_, ?_⟩ <;>
                simp [analyze, hjd', hext, htxt', get_gemini_response, hrem]
            | success t =>
              rcases hjson : json_loads (clean t) with _ | v
              · left
                refine ⟨?_, ?_, ?_⟩ <;>
                  simp [analyze, hjd', hext, htxt', get_gemini_response, hrem, hjson]
              · rcases hrb : renderBlock v with ⟨secs, exc⟩
                have hres : analyze ⟨some (PdfInput.valid pages), jd, remote⟩ =
                    ⟨[], true, secs, exc⟩ := by
                  simp [analyze, hjd', hext, htxt', get_gemini_response, hrem, hjson, hrb]
                cases exc with
                | some e =>
                  right; right; right
                  rw [hres]
                  exact ⟨rfl, by simp⟩
                | none =>
                  rcases renderBlock_none_shape v secs hrb with hsecs | hall
                  · right; right; left
                    rw [hres, hsecs]
                    exact ⟨rfl, rfl, rfl⟩
                  · right; left
                    rw [hres]
                    exact ⟨rfl, rfl, hall⟩

lemma json_loads_rejects_leading_zero : json_loads "01" = Option.none := rfl

lemma json_loads_rejects_raw_control_char :
    json_loads "\"a\nb\"" = Option.none := rfl

lemma json_loads_accepts_float :
    json_loads "1.5" = some (PyVal.float "1.5") := rfl

lemma json_loads_accepts_nan :
    json_loads "NaN" = some (PyVal.float "NaN") := rfl

lemma json_loads_accepts_unicode_escape :
    json_loads "\"\\u0041\"" = some (PyVal.str "A") := rfl

/-- Claim C6: when the remote call returns text whose normalized form is not
valid JSON, the client fails, the error messages shown carry the raw
*un-normalized* response text, and the run renders nothing — the pipeline
aborts with no retry (the handler makes at most one remote call per run). -/
theorem malformed_response_aborts (pdf : PdfInput) (resume jd t : String)
    (remote : String → RemoteOutcome)
    (hresp : remote (buildPrompt resume jd) = RemoteOutcome.success t)
    (hparse : json_loads (clean t) = Option.none)
    (hpdf : get_pdf_text pdf = some resume)
    (hres : resume ≠ "") (hjd : jd ≠ "") :
    get_gemini_response resume jd remote =
      (Option.none, [ErrMsg.aiError, ErrMsg.rawResponse t])
    ∧ analyze ⟨some pdf, jd, remote⟩ =
        ⟨[ErrMsg.aiError, ErrMsg.rawResponse t], true, [], Option.none⟩ := by
  have hg : get_gemini_response resume jd remote =
      (Option.none, [ErrMsg.aiError, ErrMsg.rawResponse t]) := by
    rw [get_gemini_response, hresp]
    dsimp only
    rw [hparse]
  refine ⟨hg, ?_⟩
  simp [analyze, hpdf, hg, isEmpty_eq_false_of_ne hres, isEmpty_eq_false_of_ne hjd]

theorem malformed_response_aborts_witness :
    get_gemini_response "My resume text" "Backend role"
        (fun _ => RemoteOutcome.success "I am unable to produce an analysis.") =
      (Option.none,
        [ErrMsg.aiError, ErrMsg.rawResponse "I am unable to produce an analysis."])
    ∧ analyze ⟨some (PdfInput.valid ["My resume text"]), "Backend role",
        fun _ => RemoteOutcome.success "I am unable to produce an analysis."⟩ =
        ⟨[ErrMsg.aiError, ErrMsg.rawResponse "I am unable to produce an analysis."],
          true, [], Option.none⟩ :=
  malformed_response_aborts (PdfInput.valid ["My resume text"])
    "My resume text" "Backend role" "I am unable to produce an analysis."
    (fun _ => RemoteOutcome.success "I am unable to produce an analysis.")
    rfl rfl rfl (by decide) (by decide)

/-! ### Normalization lemmas (claim C2) -/

lemma replaceAllF_nil (fuel : Nat) (pat rep : List Char) :
    replaceAllF fuel pat rep [] = [] := by
  cases fuel <;> rfl

lemma isPrefixOf_append_self (l t : List Char) : l.isPrefixOf (l ++ t) = true := by
  induction l with
  | nil => exact List.isPrefixOf_nil_left
  | cons a l ih => simp [List.isPrefixOf, ih]

lemma isSuffixOf_append_self (l t : List Char) : l.isSuffixOf (t ++ l) = true := by
  rw [List.isSuffixOf, List.reverse_append]
  exact isPrefixOf_append_self _ _

lemma replaceAllF_skip (p rep : List Char) (m : List Char)
    (hm : ∀ c ∈ m, c ≠ '`') (r : List Char) :
    ∀ (fuel : Nat), m.length + r.length ≤ fuel →
      replaceAllF fuel ('`' :: p) rep (m ++ r)
        = m ++ replaceAllF (fuel - m.length) ('`' :: p) rep r := by
  induction m with
  | nil =>
    intro fuel _
    simp
  | cons c cs ih =>
    intro fuel hf
    cases fuel with
    | zero => simp at hf
    | succ f =>
      rw [List.cons_append, replaceAllF, if_neg]
      · rw [ih (fun x hx => hm x (List.mem_cons_of_mem _ hx)) f
          (by simp at hf ⊢; omega)]
        simp only [List.length_cons, Nat.succ_sub_succ, List.cons_append]
      · intro hcon
        have hpre := hcon.2
        have hc : c ≠ '`' := hm c (List.mem_cons_self _ _)
        simp only [List.isPrefixOf, Bool.and_eq_true, beq_iff_eq] at hpre
        exact hc hpre.1.symm

lemma replaceAllF_hit (a : Char) (p rep rest : List Char) (f : Nat) :
    replaceAllF (f + 1) (a :: p) rep ((a :: p) ++ rest)
      = rep ++ replaceAllF f (a :: p) rep rest := by
  rw [List.cons_append, replaceAllF,
    if_pos ⟨List.cons_ne_nil a p,
      by rw [← List.cons_append]; exact isPrefixOf_append_self _ _⟩]
  have hdrop : List.drop (a :: p).length (a :: (p ++ rest)) = rest := by
    rw [← List.cons_append]
    exact List.drop_left _ _
  rw [hdrop]

lemma replaceAllF_fj_one (g : Nat) :
    replaceAllF g "```json".data [] ['`'] = ['`'] := by
  cases g with
  | zero => rfl
  | succ g =>
    rw [replaceAllF, if_neg (by decide)]
    rw [replaceAllF_nil]

lemma replaceAllF_fj_two (g : Nat) :
    replaceAllF g "```json".data [] ['`', '`'] = ['`', '`'] := by
  cases g with
  | zero => rfl
  | succ g =>
    rw [replaceAllF, if_neg (by decide)]
    rw [replaceAllF_fj_one]

lemma replaceAllF_fj_fence (g : Nat) :
    replaceAllF g "```json".data [] "```".data = "```".data := by
  cases g with
  | zero => rfl
  | succ g =>
    rw [show "```".data = '`' :: ['`', '`'] from rfl]
    rw [replaceAllF, if_neg (by decide)]
    rw [replaceAllF_fj_two]

lemma replaceAll_strip_lead (mid : List Char) (hm : ∀ c ∈ mid, c ≠ '`') :
    replaceAll "```json".data [] ("```json".data ++ (mid ++ "```".data))
      = mid ++ "```".data := by
  rw [replaceAll]
  rw [show ("```json".data ++ (mid ++ "```".data)).length = (mid.length + 9) + 1 from by
    simp]
  rw [show "```json".data = '`' :: "``json".data from rfl]
  rw [replaceAllF_hit]
  rw [List.nil_append]
  rw [replaceAllF_skip "``json".data [] mid hm "```".data (mid.length + 9)
    (by simp)]
  rw [show mid.length + 9 - mid.length = 9 from by omega]
  rw [show ('`' :: "``json".data) = "```json".data from rfl]
  rw [replaceAllF_fj_fence]

lemma replaceAll_strip_trail (mid : List Char) (hm : ∀ c ∈ mid, c ≠ '`') :
    replaceAll "```".data [] (mid ++ "```".data) = mid := by
  rw [replaceAll]
  rw [show "```".data = '`' :: "``".data from rfl]
  rw [replaceAllF_skip "``".data [] mid hm ('`' :: "``".data)
    ((mid ++ '`' :: "``".data).length) (by simp)]
  rw [show (mid ++ '`' :: "``".data).length - mid.length = 3 from by simp]
  rw [show replaceAllF 3 ('`' :: "``".data) [] ('`' :: "``".data) = [] from rfl]
  simp

lemma specNormalize_wrapped (s : String) (mid : List Char)
    (hs : pyStrip s.data = "```json".data ++ (mid ++ "```".data)) :
    specNormalize s = String.mk (pyStrip mid) := by
  simp only [specNormalize]
  rw [hs]
  rw [if_pos (isPrefixOf_append_self "```json".data (mid ++ "```".data))]
  rw [show (7 : Nat) = "```json".data.length from rfl, List.drop_left]
  rw [if_pos (isSuffixOf_append_self "```".data mid)]
  rw [show (mid ++ "```".data).length - 3 = mid.length from by simp]
  rw [List.take_left]

/-- Counterexample to claim C2 as stated: on `a```b` the code's
normalization deletes the *interior* triple backtick (global `replace`),
while the spec's leading/trailing-only stripping would leave the text
unchanged — so normalization does change something besides a
leading/trailing marker. -/
theorem clean_changes_interior_marker :
    clean "a```b" = "ab" ∧ specNormalize "a```b" = "a```b"
      ∧ ("ab" : String) ≠ "a```b" := by
  refine ⟨rfl, rfl, ?_⟩
  decide

/-- Claim C2 (amended): the code's normalization trims surrounding
whitespace and deletes *every* occurrence of the literal sequences
"```json" and then "```" anywhere in the text (not only at the edges),
then trims again.  On a response that is exactly a fenced block — a leading
"```json" marker, a backtick-free body, and a trailing "```" — this agrees
with the spec's leading/trailing stripping, and both yield the trimmed
body. -/
theorem clean_strips_fenced_wrapper (s : String) (mid : List Char)
    (hs : pyStrip s.data = "```json".data ++ (mid ++ "```".data))
    (hm : ∀ c ∈ mid, c ≠ '`') :
    clean s = String.mk (pyStrip mid) ∧ clean s = specNormalize s := by
  have hclean : clean s = String.mk (pyStrip mid) := by
    rw [clean, hs]
    rw [replaceAll_strip_lead mid hm]
    rw [replaceAll_strip_trail mid hm]
  exact ⟨hclean, hclean.trans (specNormalize_wrapped s mid hs).symm⟩

theorem clean_strips_fenced_wrapper_witness :
    clean "```json\n\x7b\"match_score\":80\x7d\n```"
        = String.mk (pyStrip "\n\x7b\"match_score\":80\x7d\n".data)
      ∧ clean "```json\n\x7b\"match_score\":80\x7d\n```"
        = specNormalize "```json\n\x7b\"match_score\":80\x7d\n```" :=
  clean_strips_fenced_wrapper "```json\n\x7b\"match_score\":80\x7d\n```"
    "\n\x7b\"match_score\":80\x7d\n".data rfl (by decide)

end CareerAdvisor
